import Mathlib

/-!
Verification development for the DemandIT strategic-portfolio-management server.

The definitions below are a shallow embedding of the rows, the Drizzle/Zod
schemas (`src/shared/schema.ts`), the `DatabaseStorage` methods
(`src/server/index.ts`, storage part) and the Express route handlers
(`src/server/routes.ts`).  Tables are lists of rows, the Postgres store is a
`Db` record, generated ids come from a counter, and every fallible database
statement returns `Except`.  Foreign keys declared with `.references(...)` in
`schema.ts` are enforced the way Postgres enforces them (checked on insert and
update, `NO ACTION` on delete).  Timestamps are modelled as naturals supplied
by the caller as `now`.
-/

namespace Spm

/-- JavaScript truthiness of an optional string (both `undefined` and the
empty string are falsy); route handlers test `req.query.x` this way. -/
def strTruthy : Option String → Bool
  | none => false
  | some s => !(s == "")

/-- Lexicographic comparison of character lists; stands in for the varchar
ordering used by `orderBy(asc(...name))`.  Claims only use membership facts
about name-ordered lists, so the exact collation is irrelevant. -/
def charsLe : List Char → List Char → Bool
  | [], _ => true
  | _ :: _, [] => false
  | a :: as, b :: bs => if a = b then charsLe as bs else decide (a.toNat ≤ b.toNat)

def strLeb (a b : String) : Bool := charsLe a.data b.data

/-- Does `needle` occur at the start of `hay`? -/
def charsAtStart : List Char → List Char → Bool
  | [], _ => true
  | _ :: _, [] => false
  | a :: as, b :: bs => a = b && charsAtStart as bs

/-- Does `needle` occur contiguously anywhere inside `hay` (literal
substring containment, no wildcard interpretation)? -/
def charsHave (needle : List Char) : List Char → Bool
  | [] => needle.isEmpty
  | b :: rest => charsAtStart needle (b :: rest) || charsHave needle rest

/-- Substring test: `strHas hay q` is true when `q` occurs as a substring of `hay`. -/
def strHas (hay q : String) : Bool := charsHave q.data hay.data

/-- Does `f` accept some suffix of the list (the list itself included)? -/
def anySuffix (f : List Char → Bool) : List Char → Bool
  | [] => f []
  | c :: t => f (c :: t) || anySuffix f t

/-- Postgres `LIKE` pattern matching, anchored at both ends: `%` matches any
sequence of characters, `_` matches exactly one character, and the default
escape character `\` makes the following character literal.  (A pattern
ending in a lone escape raises an SQL error; the patterns this file uses all
have the shape `'%' ++ q ++ '%'`, which always ends in `%`, so that branch is
unreachable and modelled as a non-match.)  `LIKE` is case-sensitive. -/
def likeMatch : List Char → List Char → Bool
  | [] => fun s => s.isEmpty
  | p :: ps =>
    if p = '%' then fun s => anySuffix (likeMatch ps) s
    else if p = '_' then fun s =>
      match s with
      | [] => false
      | _ :: s' => likeMatch ps s'
    else if p = '\\' then
      match ps with
      | [] => fun _ => false
      | e :: ps' => fun s =>
        match s with
        | [] => false
        | c :: s' => (c = e) && likeMatch ps' s'
    else fun s =>
      match s with
      | [] => false
      | c :: s' => (c = p) && likeMatch ps s'

/-- Insert into a list kept ordered by `le` (helper for `sortBy`). -/
def insBy (le : α → α → Bool) (a : α) : List α → List α
  | [] => [a]
  | b :: l => if le a b then a :: b :: l else b :: insBy le a l

/-- Insertion sort; models the `orderBy` clause of a select. -/
def sortBy (le : α → α → Bool) : List α → List α
  | [] => []
  | a :: l => insBy le a (sortBy le l)

/-! Rows.  One structure per table of `src/shared/schema.ts`; nullable
columns are `Option`, integers are `Int`, timestamps are `Nat`. -/

structure User where
  id : String
  email : Option String
  firstName : Option String
  lastName : Option String
  profileImageUrl : Option String
  role : String
  createdAt : Nat
  updatedAt : Nat
deriving Repr, DecidableEq

structure Portfolio where
  id : String
  name : String
  description : Option String
  ownerId : String
  status : String
  budget : Option Int
  createdAt : Nat
  updatedAt : Nat
deriving Repr, DecidableEq

structure Program where
  id : String
  name : String
  description : Option String
  portfolioId : String
  ownerId : String
  status : String
  budget : Option Int
  createdAt : Nat
  updatedAt : Nat
deriving Repr, DecidableEq

structure Phase where
  id : String
  name : String
  type : String
  order : Int
  isActive : Bool
deriving Repr, DecidableEq

structure Status where
  id : String
  name : String
  type : String
  color : String
  isActive : Bool
deriving Repr, DecidableEq

structure Demand where
  id : String
  title : String
  description : Option String
  programId : String
  phaseId : Option String
  statusId : Option String
  ownerId : String
  priority : String
  requestedDate : Nat
  estimatedEffort : Option Int
  businessValue : Option String
  createdAt : Nat
  updatedAt : Nat
deriving Repr, DecidableEq

structure Project where
  id : String
  title : String
  description : Option String
  programId : String
  demandId : Option String
  phaseId : Option String
  statusId : Option String
  ownerId : String
  projectManagerId : Option String
  priority : String
  startDate : Option Nat
  endDate : Option Nat
  budget : Option Int
  progress : Option Int
  createdAt : Nat
  updatedAt : Nat
deriving Repr, DecidableEq

/-! Zod insert payloads.  `createInsertSchema(table).omit({id, createdAt,
updatedAt})` makes a not-null column without a default required, and makes
nullable columns and columns with defaults optional.  A request body is the
same record with every field optional; parsing checks the required fields.
A field being `none` covers both an absent key and an explicit `null`. -/

structure PortfolioBody where
  name : Option String
  description : Option String
  ownerId : Option String
  status : Option String
  budget : Option Int
deriving Repr, DecidableEq

structure InsertPortfolio where
  name : String
  description : Option String
  ownerId : String
  status : Option String
  budget : Option Int
deriving Repr, DecidableEq

structure ProgramBody where
  name : Option String
  description : Option String
  portfolioId : Option String
  ownerId : Option String
  status : Option String
  budget : Option Int
deriving Repr, DecidableEq

structure InsertProgram where
  name : String
  description : Option String
  portfolioId : String
  ownerId : String
  status : Option String
  budget : Option Int
deriving Repr, DecidableEq

structure DemandBody where
  title : Option String
  description : Option String
  programId : Option String
  phaseId : Option String
  statusId : Option String
  ownerId : Option String
  priority : Option String
  requestedDate : Option Nat
  estimatedEffort : Option Int
  businessValue : Option String
deriving Repr, DecidableEq

structure InsertDemand where
  title : String
  description : Option String
  programId : String
  phaseId : Option String
  statusId : Option String
  ownerId : String
  priority : Option String
  requestedDate : Option Nat
  estimatedEffort : Option Int
  businessValue : Option String
deriving Repr, DecidableEq

structure ProjectBody where
  title : Option String
  description : Option String
  programId : Option String
  demandId : Option String
  phaseId : Option String
  statusId : Option String
  ownerId : Option String
  projectManagerId : Option String
  priority : Option String
  startDate : Option Nat
  endDate : Option Nat
  budget : Option Int
  progress : Option Int
deriving Repr, DecidableEq

structure InsertProject where
  title : String
  description : Option String
  programId : String
  demandId : Option String
  phaseId : Option String
  statusId : Option String
  ownerId : String
  projectManagerId : Option String
  priority : Option String
  startDate : Option Nat
  endDate : Option Nat
  budget : Option Int
  progress : Option Int
deriving Repr, DecidableEq

structure PhaseBody where
  name : Option String
  type : Option String
  order : Option Int
  isActive : Option Bool
deriving Repr, DecidableEq

structure InsertPhase where
  name : String
  type : String
  order : Int
  isActive : Option Bool
deriving Repr, DecidableEq

/-- The `details` jsonb payload of an audit row, shaped as the handlers in
`routes.ts` build it: a full snapshot for a create, the parsed patch for an
update, the empty object for a delete, a role echo for a role change. -/
inductive AuditDetails where
  | emptyD : AuditDetails
  | portfolioSnap : Portfolio → AuditDetails
  | programSnap : Program → AuditDetails
  | demandSnap : Demand → AuditDetails
  | projectSnap : Project → AuditDetails
  | portfolioUpdates : PortfolioBody → AuditDetails
  | projectUpdates : ProjectBody → AuditDetails
  | roleUpdate : String → AuditDetails
deriving Repr, DecidableEq

structure AuditLog where
  id : String
  entityType : String
  entityId : String
  changeType : String
  changedBy : String
  details : AuditDetails
  timestamp : Nat
deriving Repr, DecidableEq

structure InsertAuditLog where
  entityType : String
  entityId : String
  changeType : String
  changedBy : String
  details : AuditDetails
deriving Repr, DecidableEq

/-- The relational store: one list per table, plus the id-generation
counter standing in for `gen_random_uuid()`. -/
structure Db where
  users : List User
  portfolios : List Portfolio
  programs : List Program
  demands : List Demand
  projects : List Project
  phases : List Phase
  statuses : List Status
  auditLog : List AuditLog
  nextId : Nat
deriving Repr, DecidableEq

/-- Generated row ids; always nonempty, like the uuids Postgres generates. -/
def genId (n : Nat) : String := "row-" ++ toString n

inductive DbErr where
  | fkViolation : DbErr
deriving Repr, DecidableEq

inductive ZodErr where
  | invalid : ZodErr
deriving Repr, DecidableEq

def hasUser (db : Db) (id : String) : Bool := db.users.any (fun u => u.id == id)
def hasPortfolio (db : Db) (id : String) : Bool := db.portfolios.any (fun p => p.id == id)
def hasProgram (db : Db) (id : String) : Bool := db.programs.any (fun g => g.id == id)
def hasDemand (db : Db) (id : String) : Bool := db.demands.any (fun d => d.id == id)
def hasPhaseRow (db : Db) (id : String) : Bool := db.phases.any (fun p => p.id == id)
def hasStatusRow (db : Db) (id : String) : Bool := db.statuses.any (fun s => s.id == id)

/-- An optional reference satisfies a foreign key when absent or resolvable. -/
def optRef (f : String → Bool) : Option String → Bool
  | none => true
  | some s => f s

/-! Storage operations, one definition per `DatabaseStorage` method used by a
claim (`src/server/index.ts`).  Selects sort with `sortBy`; inserts draw a
fresh id, apply column defaults, and check the foreign keys declared in
`schema.ts`; updates patch only supplied fields; deletes are hard deletes
guarded solely by the database `NO ACTION` foreign keys. -/

def getUser (db : Db) (id : String) : Option User :=
  db.users.find? (fun u => u.id == id)

def nameLe (a b : Portfolio) : Bool := strLeb a.name b.name

def getPortfolios (db : Db) : List Portfolio :=
  sortBy nameLe db.portfolios

def getPortfolio (db : Db) (id : String) : Option Portfolio :=
  db.portfolios.find? (fun p => p.id == id)

def createPortfolio (db : Db) (now : Nat) (i : InsertPortfolio) :
    Except DbErr (Portfolio × Db) :=
  if hasUser db i.ownerId then
    let row : Portfolio :=
      { id := genId db.nextId, name := i.name, description := i.description,
        ownerId := i.ownerId, status := i.status.getD "active",
        budget := i.budget, createdAt := now, updatedAt := now }
    .ok (row, { db with portfolios := db.portfolios ++ [row], nextId := db.nextId + 1 })
  else .error .fkViolation

def applyPortfolioPatch (p : Portfolio) (b : PortfolioBody) (now : Nat) : Portfolio :=
  { p with
    name := b.name.getD p.name,
    description := match b.description with | some d => some d | none => p.description,
    ownerId := b.ownerId.getD p.ownerId,
    status := b.status.getD p.status,
    budget := match b.budget with | some x => some x | none => p.budget,
    updatedAt := now }

def portfolioPatchFkOk (db : Db) (b : PortfolioBody) : Bool :=
  optRef (hasUser db) b.ownerId

/-- Storage `updatePortfolio`: `update ... set {...patch, updatedAt} where id ... returning`.
When no row matches, the statement succeeds with an empty `returning` set and
the caller receives `undefined` (modelled as `none`). -/
def updatePortfolio (db : Db) (now : Nat) (id : String) (b : PortfolioBody) :
    Except DbErr (Option Portfolio × Db) :=
  match db.portfolios.find? (fun p => p.id == id) with
  | none => .ok (none, db)
  | some p =>
    if portfolioPatchFkOk db b then
      .ok (some (applyPortfolioPatch p b now),
        { db with portfolios :=
            db.portfolios.map (fun q => if q.id == id then applyPortfolioPatch q b now else q) })
    else .error .fkViolation

/-- Hard delete; `programs.portfolioId` references `portfolios.id`, so the
statement raises a foreign-key violation when a program still points at the
row being deleted. -/
def deletePortfolio (db : Db) (id : String) : Except DbErr Db :=
  if db.portfolios.any (fun p => p.id == id) && db.programs.any (fun g => g.portfolioId == id) then
    .error .fkViolation
  else .ok { db with portfolios := db.portfolios.filter (fun p => !(p.id == id)) }

def programNameLe (a b : Program) : Bool := strLeb a.name b.name

/-- Storage `getPrograms(portfolioId?)`: the source filters only under the JS truthy
check `if (portfolioId)`, then orders by name ascending. -/
def getPrograms (db : Db) (portfolioId : Option String) : List Program :=
  if strTruthy portfolioId then
    sortBy programNameLe (db.programs.filter (fun g => some g.portfolioId == portfolioId))
  else
    sortBy programNameLe db.programs

def createProgram (db : Db) (now : Nat) (i : InsertProgram) :
    Except DbErr (Program × Db) :=
  if hasPortfolio db i.portfolioId && hasUser db i.ownerId then
    let row : Program :=
      { id := genId db.nextId, name := i.name, description := i.description,
        portfolioId := i.portfolioId, ownerId := i.ownerId,
        status := i.status.getD "active", budget := i.budget,
        createdAt := now, updatedAt := now }
    .ok (row, { db with programs := db.programs ++ [row], nextId := db.nextId + 1 })
  else .error .fkViolation

def createDemand (db : Db) (now : Nat) (i : InsertDemand) :
    Except DbErr (Demand × Db) :=
  if hasProgram db i.programId && hasUser db i.ownerId
      && optRef (hasPhaseRow db) i.phaseId && optRef (hasStatusRow db) i.statusId then
    let row : Demand :=
      { id := genId db.nextId, title := i.title, description := i.description,
        programId := i.programId, phaseId := i.phaseId, statusId := i.statusId,
        ownerId := i.ownerId, priority := i.priority.getD "medium",
        requestedDate := i.requestedDate.getD now,
        estimatedEffort := i.estimatedEffort, businessValue := i.businessValue,
        createdAt := now, updatedAt := now }
    .ok (row, { db with demands := db.demands ++ [row], nextId := db.nextId + 1 })
  else .error .fkViolation

/-- Hard delete of a demand; `projects.demandId` references `demands.id`
(`schema.ts` line 101) with the default `NO ACTION`, so deleting a demand a
project still references raises a foreign-key violation. -/
def deleteDemand (db : Db) (id : String) : Except DbErr Db :=
  if db.demands.any (fun d => d.id == id) && db.projects.any (fun p => p.demandId == some id) then
    .error .fkViolation
  else .ok { db with demands := db.demands.filter (fun d => !(d.id == id)) }

def createProject (db : Db) (now : Nat) (i : InsertProject) :
    Except DbErr (Project × Db) :=
  if hasProgram db i.programId && hasUser db i.ownerId
      && optRef (hasDemand db) i.demandId && optRef (hasPhaseRow db) i.phaseId
      && optRef (hasStatusRow db) i.statusId && optRef (hasUser db) i.projectManagerId then
    let row : Project :=
      { id := genId db.nextId, title := i.title, description := i.description,
        programId := i.programId, demandId := i.demandId, phaseId := i.phaseId,
        statusId := i.statusId, ownerId := i.ownerId,
        projectManagerId := i.projectManagerId, priority := i.priority.getD "medium",
        startDate := i.startDate, endDate := i.endDate, budget := i.budget,
        progress := some (i.progress.getD 0), createdAt := now, updatedAt := now }
    .ok (row, { db with projects := db.projects ++ [row], nextId := db.nextId + 1 })
  else .error .fkViolation

def applyProjectPatch (p : Project) (b : ProjectBody) (now : Nat) : Project :=
  { p with
    title := b.title.getD p.title,
    description := match b.description with | some d => some d | none => p.description,
    programId := b.programId.getD p.programId,
    demandId := match b.demandId with | some d => some d | none => p.demandId,
    phaseId := match b.phaseId with | some d => some d | none => p.phaseId,
    statusId := match b.statusId with | some d => some d | none => p.statusId,
    ownerId := b.ownerId.getD p.ownerId,
    projectManagerId := match b.projectManagerId with | some d => some d | none => p.projectManagerId,
    priority := b.priority.getD p.priority,
    startDate := match b.startDate with | some d => some d | none => p.startDate,
    endDate := match b.endDate with | some d => some d | none => p.endDate,
    budget := match b.budget with | some d => some d | none => p.budget,
    progress := match b.progress with | some d => some d | none => p.progress,
    updatedAt := now }

def projectPatchFkOk (db : Db) (b : ProjectBody) : Bool :=
  optRef (hasProgram db) b.programId && optRef (hasDemand db) b.demandId
    && optRef (hasPhaseRow db) b.phaseId && optRef (hasStatusRow db) b.statusId
    && optRef (hasUser db) b.ownerId && optRef (hasUser db) b.projectManagerId

def updateProject (db : Db) (now : Nat) (id : String) (b : ProjectBody) :
    Except DbErr (Option Project × Db) :=
  match db.projects.find? (fun p => p.id == id) with
  | none => .ok (none, db)
  | some p =>
    if projectPatchFkOk db b then
      .ok (some (applyProjectPatch p b now),
        { db with projects :=
            db.projects.map (fun q => if q.id == id then applyProjectPatch q b now else q) })
    else .error .fkViolation

def phaseOrderLe (a b : Phase) : Bool := decide (a.order ≤ b.order)

/-- Storage `getPhases(type?)`: active rows, filtered by type only under the JS truthy
check, ordered by `order` ascending. -/
def getPhases (db : Db) (type : Option String) : List Phase :=
  if strTruthy type then
    sortBy phaseOrderLe (db.phases.filter (fun p => some p.type == type && p.isActive))
  else
    sortBy phaseOrderLe (db.phases.filter (fun p => p.isActive))

/-- Storage `getPhase(id)` does not filter on `isActive`: an inactive phase still
resolves by id. -/
def getPhase (db : Db) (id : String) : Option Phase :=
  db.phases.find? (fun p => p.id == id)

def createPhase (db : Db) (i : InsertPhase) : Phase × Db :=
  let row : Phase :=
    { id := genId db.nextId, name := i.name, type := i.type,
      order := i.order, isActive := i.isActive.getD true }
  (row, { db with phases := db.phases ++ [row], nextId := db.nextId + 1 })

def applyPhasePatch (p : Phase) (b : PhaseBody) : Phase :=
  { p with
    name := b.name.getD p.name,
    type := b.type.getD p.type,
    order := b.order.getD p.order,
    isActive := b.isActive.getD p.isActive }

/-- Storage `updatePhase` applies `set(patch)` with no `updatedAt` column and no
foreign keys; a missing id yields an empty `returning` set. -/
def updatePhase (db : Db) (id : String) (b : PhaseBody) : Option Phase × Db :=
  match db.phases.find? (fun p => p.id == id) with
  | none => (none, db)
  | some p =>
    (some (applyPhasePatch p b),
      { db with phases := db.phases.map (fun q => if q.id == id then applyPhasePatch q b else q) })

def createAuditLog (db : Db) (now : Nat) (i : InsertAuditLog) :
    Except DbErr (AuditLog × Db) :=
  if hasUser db i.changedBy then
    let row : AuditLog :=
      { id := genId db.nextId, entityType := i.entityType, entityId := i.entityId,
        changeType := i.changeType, changedBy := i.changedBy,
        details := i.details, timestamp := now }
    .ok (row, { db with auditLog := db.auditLog ++ [row], nextId := db.nextId + 1 })
  else .error .fkViolation

/-- One column of the `searchUsers` disjunction: the handler interpolates the
raw, unescaped query into the pattern (index.ts builds the template literal
around the query), so the column matches when `LIKE '%' ++ q ++ '%'` holds
with full SQL wildcard semantics — `%` and `_` inside the query act as
wildcards.  `LIKE` on a null column yields null (not a match) and is
case-sensitive. -/
def colLikeQuery (q : String) : Option String → Bool
  | none => false
  | some s => likeMatch ("%" ++ q ++ "%").data s.data

/-- Literal-substring column matcher: for a query without `%`, `_` or the
escape character, SQL `LIKE '%' ++ q ++ '%'` is exactly this (proved below). -/
def colHasQuery (q : String) : Option String → Bool
  | none => false
  | some s => strHas s q

def userLikeMatch (q : String) (u : User) : Bool :=
  colLikeQuery q u.firstName || colLikeQuery q u.lastName || colLikeQuery q u.email

/-- Storage `searchUsers(query)`: `like` on first name, last name, email, `limit(20)`. -/
def searchUsers (db : Db) (q : String) : List User :=
  (db.users.filter (userLikeMatch q)).take 20

/-! Zod parsing.  `schema.parse(body)` rejects a body that is missing a
required field; `schema.partial().parse(body)` accepts any body (all fields
optional), so the handlers use the body record itself as the patch. -/

def parseInsertPortfolio (b : PortfolioBody) : Except ZodErr InsertPortfolio :=
  match b.name, b.ownerId with
  | some n, some o =>
    .ok { name := n, description := b.description, ownerId := o,
          status := b.status, budget := b.budget }
  | _, _ => .error .invalid

def parseInsertProgram (b : ProgramBody) : Except ZodErr InsertProgram :=
  match b.name, b.portfolioId, b.ownerId with
  | some n, some f, some o =>
    .ok { name := n, description := b.description, portfolioId := f, ownerId := o,
          status := b.status, budget := b.budget }
  | _, _, _ => .error .invalid

def parseInsertDemand (b : DemandBody) : Except ZodErr InsertDemand :=
  match b.title, b.programId, b.ownerId with
  | some t, some g, some o =>
    .ok { title := t, description := b.description, programId := g,
          phaseId := b.phaseId, statusId := b.statusId, ownerId := o,
          priority := b.priority, requestedDate := b.requestedDate,
          estimatedEffort := b.estimatedEffort, businessValue := b.businessValue }
  | _, _, _ => .error .invalid

/-- Parsing for `insertProjectSchema`: it requires title, programId and ownerId; `progress`
is an unconstrained optional number (the schema carries no `[0,100]` bound,
despite the `// 0-100` column comment). -/
def parseInsertProject (b : ProjectBody) : Except ZodErr InsertProject :=
  match b.title, b.programId, b.ownerId with
  | some t, some g, some o =>
    .ok { title := t, description := b.description, programId := g,
          demandId := b.demandId, phaseId := b.phaseId, statusId := b.statusId,
          ownerId := o, projectManagerId := b.projectManagerId,
          priority := b.priority, startDate := b.startDate, endDate := b.endDate,
          budget := b.budget, progress := b.progress }
  | _, _, _ => .error .invalid

/-- Parsing for `insertPhaseSchema`: it omits only `id`; `order` is a not-null column without
a default, hence a required field. -/
def parseInsertPhase (b : PhaseBody) : Except ZodErr InsertPhase :=
  match b.name, b.type, b.order with
  | some n, some t, some o =>
    .ok { name := n, type := t, order := o, isActive := b.isActive }
  | _, _, _ => .error .invalid

/-! Route handlers (`registerRoutes` in `src/server/routes.ts`).  Each is a
function from the store, the current time and the authenticated actor id to a
status code and the store after the request.  A thrown storage error is
caught and surfaced as 500; a `ZodError` as 400. -/

structure Resp where
  status : Nat
  db : Db
deriving Repr, DecidableEq

/-- Handler for `POST /api/portfolios`: parse `{...req.body, ownerId: userId}`, insert,
then write one audit row; 201 on success. -/
def postPortfoliosRoute (db : Db) (now : Nat) (actor : String) (body : PortfolioBody) : Resp :=
  match parseInsertPortfolio { body with ownerId := some actor } with
  | .error _ => ⟨400, db⟩
  | .ok ins =>
    match createPortfolio db now ins with
    | .error _ => ⟨500, db⟩
    | .ok (row, db1) =>
      match createAuditLog db1 now
          ⟨"portfolio", row.id, "created", actor, .portfolioSnap row⟩ with
      | .error _ => ⟨500, db1⟩
      | .ok (_, db2) => ⟨201, db2⟩

/-- Handler for `PUT /api/portfolios/:id`: partial parse, update, audit, 200.  When the id
matches no row the storage call returns `undefined` and the handler then
dereferences `portfolio.id`, a TypeError caught by the generic handler: 500. -/
def putPortfolioRoute (db : Db) (now : Nat) (actor : String) (id : String)
    (body : PortfolioBody) : Resp :=
  match updatePortfolio db now id body with
  | .error _ => ⟨500, db⟩
  | .ok (none, db1) => ⟨500, db1⟩
  | .ok (some row, db1) =>
    match createAuditLog db1 now
        ⟨"portfolio", row.id, "updated", actor, .portfolioUpdates body⟩ with
    | .error _ => ⟨500, db1⟩
    | .ok (_, db2) => ⟨200, db2⟩

/-- Handler for `DELETE /api/portfolios/:id`: delete, audit with the url id, 204. -/
def deletePortfolioRoute (db : Db) (now : Nat) (actor : String) (id : String) : Resp :=
  match deletePortfolio db id with
  | .error _ => ⟨500, db⟩
  | .ok db1 =>
    match createAuditLog db1 now ⟨"portfolio", id, "deleted", actor, .emptyD⟩ with
    | .error _ => ⟨500, db1⟩
    | .ok (_, db2) => ⟨204, db2⟩

/-- Handler for `POST /api/programs`. -/
def postProgramsRoute (db : Db) (now : Nat) (actor : String) (body : ProgramBody) : Resp :=
  match parseInsertProgram { body with ownerId := some actor } with
  | .error _ => ⟨400, db⟩
  | .ok ins =>
    match createProgram db now ins with
    | .error _ => ⟨500, db⟩
    | .ok (row, db1) =>
      match createAuditLog db1 now
          ⟨"program", row.id, "created", actor, .programSnap row⟩ with
      | .error _ => ⟨500, db1⟩
      | .ok (_, db2) => ⟨201, db2⟩

/-- Handler for `POST /api/demands`. -/
def postDemandsRoute (db : Db) (now : Nat) (actor : String) (body : DemandBody) : Resp :=
  match parseInsertDemand { body with ownerId := some actor } with
  | .error _ => ⟨400, db⟩
  | .ok ins =>
    match createDemand db now ins with
    | .error _ => ⟨500, db⟩
    | .ok (row, db1) =>
      match createAuditLog db1 now
          ⟨"demand", row.id, "created", actor, .demandSnap row⟩ with
      | .error _ => ⟨500, db1⟩
      | .ok (_, db2) => ⟨201, db2⟩

/-- Handler for `POST /api/projects`. -/
def postProjectsRoute (db : Db) (now : Nat) (actor : String) (body : ProjectBody) : Resp :=
  match parseInsertProject { body with ownerId := some actor } with
  | .error _ => ⟨400, db⟩
  | .ok ins =>
    match createProject db now ins with
    | .error _ => ⟨500, db⟩
    | .ok (row, db1) =>
      match createAuditLog db1 now
          ⟨"project", row.id, "created", actor, .projectSnap row⟩ with
      | .error _ => ⟨500, db1⟩
      | .ok (_, db2) => ⟨201, db2⟩

/-- Handler for `PUT /api/projects/:id`; missing id surfaces as 500, like portfolios. -/
def putProjectRoute (db : Db) (now : Nat) (actor : String) (id : String)
    (body : ProjectBody) : Resp :=
  match updateProject db now id body with
  | .error _ => ⟨500, db⟩
  | .ok (none, db1) => ⟨500, db1⟩
  | .ok (some row, db1) =>
    match createAuditLog db1 now
        ⟨"project", row.id, "updated", actor, .projectUpdates body⟩ with
    | .error _ => ⟨500, db1⟩
    | .ok (_, db2) => ⟨200, db2⟩

/-- Handler for `POST /api/phases`: parse `req.body` (no owner stamping), insert, 201 —
and no audit row (phases are not core entities). -/
def postPhasesRoute (db : Db) (body : PhaseBody) : Resp :=
  match parseInsertPhase body with
  | .error _ => ⟨400, db⟩
  | .ok ins => ⟨201, (createPhase db ins).2⟩

/-- Handler for `GET /api/users/search?q=`: `if (!query) return res.json([])` — the empty
or absent query short-circuits without touching storage.  The boolean records
whether storage was queried. -/
def usersSearchRoute (db : Db) (q : Option String) : List User × Bool :=
  if strTruthy q then (searchUsers db (q.getD ""), true) else ([], false)

def validRoles : List String :=
  ["admin", "portfolio_manager", "program_manager", "project_manager", "contributor"]

/-- Handler for `PUT /api/users/:userId/role`.  After the admin and role checks the
handler calls `storage.updateUser(userId, { role })`, but `DatabaseStorage`
(`src/server/index.ts`) defines no `updateUser` method — neither does
`IStorage` — so the call is an invocation of `undefined`: a TypeError caught
by the handler's catch, surfaced as 500 with the store untouched.  An absent
current user also reaches the catch via `currentUser.role`. -/
def putUserRoleRoute (db : Db) (_now : Nat) (actor : String) (_targetId : String)
    (role : String) : Resp :=
  match getUser db actor with
  | none => ⟨500, db⟩
  | some u =>
    if u.role != "admin" then ⟨403, db⟩
    else if !(validRoles.contains role) then ⟨400, db⟩
    else ⟨500, db⟩

/-! The mutating requests on core entities that `routes.ts` registers, as one
inductive, with the dispatcher and the expected audit fields per request. -/

inductive Mutation where
  | createPortfolioM : PortfolioBody → Mutation
  | updatePortfolioM : String → PortfolioBody → Mutation
  | deletePortfolioM : String → Mutation
  | createProgramM : ProgramBody → Mutation
  | createDemandM : DemandBody → Mutation
  | createProjectM : ProjectBody → Mutation
  | updateProjectM : String → ProjectBody → Mutation
deriving Repr, DecidableEq

def runMutation (db : Db) (now : Nat) (actor : String) : Mutation → Resp
  | .createPortfolioM b => postPortfoliosRoute db now actor b
  | .updatePortfolioM id b => putPortfolioRoute db now actor id b
  | .deletePortfolioM id => deletePortfolioRoute db now actor id
  | .createProgramM b => postProgramsRoute db now actor b
  | .createDemandM b => postDemandsRoute db now actor b
  | .createProjectM b => postProjectsRoute db now actor b
  | .updateProjectM id b => putProjectRoute db now actor id b

/-- The status the handler sends when the whole mutation succeeds
(201 create, 200 update, 204 delete). -/
def successCode : Mutation → Nat
  | .createPortfolioM _ | .createProgramM _ | .createDemandM _ | .createProjectM _ => 201
  | .updatePortfolioM _ _ | .updateProjectM _ _ => 200
  | .deletePortfolioM _ => 204

def mutEntityType : Mutation → String
  | .createPortfolioM _ | .updatePortfolioM _ _ | .deletePortfolioM _ => "portfolio"
  | .createProgramM _ => "program"
  | .createDemandM _ => "demand"
  | .createProjectM _ | .updateProjectM _ _ => "project"

def mutChangeType : Mutation → String
  | .createPortfolioM _ | .createProgramM _ | .createDemandM _ | .createProjectM _ => "created"
  | .updatePortfolioM _ _ | .updateProjectM _ _ => "updated"
  | .deletePortfolioM _ => "deleted"

/-- The entity id the audit row refers to: the freshly generated id for a
create, the url id for an update or delete. -/
def mutEntityId (db : Db) : Mutation → String
  | .createPortfolioM _ | .createProgramM _ | .createDemandM _ | .createProjectM _ =>
      genId db.nextId
  | .updatePortfolioM id _ | .updateProjectM id _ | .deletePortfolioM id => id

/-! Spec-side definitions (used only to state what the specification asks
for, so it can be compared with what the code does). -/

/-- ASCII lower-casing of one character, following the spec's words for
case-insensitive comparison. -/
def lowerChar (c : Char) : Char :=
  if 65 ≤ c.toNat ∧ c.toNat ≤ 90 then Char.ofNat (c.toNat + 32) else c

/-- The spec's matching notion for user search: the query occurs in the field
as a substring case-insensitively. -/
def specContainsCI (hay q : String) : Bool :=
  charsHave (q.data.map lowerChar) (hay.data.map lowerChar)

/-! Concrete fixtures used by the witnesses and counterexamples. -/

def devUser : User :=
  ⟨"u1", some "dev@example.com", some "Dev", some "User", none, "admin", 0, 0⟩

def aliceUser : User :=
  ⟨"u2", none, some "Alice", some "Smith", none, "contributor", 0, 0⟩

def prog1 : Program := ⟨"g1", "Migration", none, "f1", "u1", "active", none, 0, 0⟩

def prog2 : Program := ⟨"g2", "Analytics", none, "f2", "u1", "active", none, 0, 0⟩

def dem1 : Demand := ⟨"d1", "Need", none, "g1", none, none, "u1", "high", 0, none, none, 0, 0⟩

def projRef : Project :=
  ⟨"p1", "Proj", none, "g1", some "d1", none, none, "u1", none, "medium",
    none, none, none, some 0, 0, 0⟩

def ph1 : Phase := ⟨"h1", "Idea", "demand", 1, true⟩

def dbEmpty : Db := ⟨[], [], [], [], [], [], [], [], 0⟩

def dbWithProgram : Db := ⟨[devUser], [], [prog1], [], [], [], [], [], 0⟩

def dbTwoPrograms : Db := ⟨[devUser], [], [prog1, prog2], [], [], [], [], [], 0⟩

def dbScenarioB : Db := ⟨[devUser], [], [prog1], [dem1], [projRef], [], [], [], 0⟩

def dbDemandOnly : Db := ⟨[devUser], [], [prog1], [dem1], [], [], [], [], 0⟩

def dbAlice : Db := ⟨[aliceUser], [], [], [], [], [], [], [], 0⟩

def dbPhases : Db := ⟨[devUser], [], [], [], [], [ph1], [], [], 0⟩

def emptyPortfolioBody : PortfolioBody := ⟨none, none, none, none, none⟩

def pfBody1 : PortfolioBody := ⟨some "Cloud Initiative", none, none, some "active", none⟩

def phaseBodyNoOrder : PhaseBody := ⟨some "Idea", some "demand", none, none⟩

/-- A syntactically valid project-create body carrying an arbitrary progress
value. -/
def progressBody (n : Int) : ProjectBody :=
  ⟨some "X", none, some "g1", none, none, none, none, none, none, none, none, none, some n⟩

/-- The patch `{ isActive: false }` sent to soft-disable a phase. -/
def disablePatch : PhaseBody := ⟨none, none, none, some false⟩

/-- An update body carrying only a progress value. -/
def progressPatch (n : Int) : ProjectBody :=
  ⟨none, none, none, none, none, none, none, none, none, none, none, none, some n⟩

theorem mem_insBy {le : α → α → Bool} {a x : α} {l : List α} :
    x ∈ insBy le a l ↔ x = a ∨ x ∈ l := by
  induction l with
  | nil => simp [insBy]
  | cons b l ih =>
    simp only [insBy]
    split
    · simp
    · simp [ih]; tauto

theorem mem_sortBy {le : α → α → Bool} {x : α} {l : List α} :
    x ∈ sortBy le l ↔ x ∈ l := by
  induction l with
  | nil => simp [sortBy]
  | cons a l ih => simp [sortBy, mem_insBy, ih]

theorem pairwise_insBy {le : α → α → Bool}
    (htr : ∀ a b c, le a b = true → le b c = true → le a c = true)
    (hto : ∀ a b, (le a b || le b a) = true)
    {a : α} {l : List α} (h : l.Pairwise (fun x y => le x y = true)) :
    (insBy le a l).Pairwise (fun x y => le x y = true) := by
  induction l with
  | nil => simp [insBy]
  | cons b l ih =>
    rcases h with _ | ⟨hb, hl⟩
    simp only [insBy]
    split
    · rename_i hab
      refine List.Pairwise.cons ?_ (List.Pairwise.cons hb hl)
      intro y hy
      rw [List.mem_cons] at hy
      rcases hy with rfl | hy
      · exact hab
      · exact htr a b y hab (hb y hy)
    · rename_i hab
      have hba : le b a = true := by
        have := hto a b
        cases hx : le a b with
        | true => exact absurd hx hab
        | false => simpa [hx] using this
      refine List.Pairwise.cons ?_ (ih hl)
      intro y hy
      rw [mem_insBy] at hy
      rcases hy with rfl | hy
      · exact hba
      · exact hb y hy

theorem pairwise_sortBy {le : α → α → Bool}
    (htr : ∀ a b c, le a b = true → le b c = true → le a c = true)
    (hto : ∀ a b, (le a b || le b a) = true) (l : List α) :
    (sortBy le l).Pairwise (fun x y => le x y = true) := by
  induction l with
  | nil => simp [sortBy]
  | cons a l ih => exact pairwise_insBy htr hto ih

/-! Shape lemmas about the storage operations, shared by the claim proofs. -/

theorem createPortfolio_ok {db : Db} {now : Nat} {i : InsertPortfolio}
    {row : Portfolio} {db1 : Db} (h : createPortfolio db now i = .ok (row, db1)) :
    db1.portfolios = db.portfolios ++ [row] ∧ db1.auditLog = db.auditLog ∧
      db1.nextId = db.nextId + 1 ∧ row.id = genId db.nextId ∧ row.ownerId = i.ownerId := by
  unfold createPortfolio at h
  split at h
  · simp only [Except.ok.injEq, Prod.mk.injEq] at h
    obtain ⟨h1, h2⟩ := h
    subst h1 h2
    simp
  · exact absurd h (by simp)

theorem createProgram_ok {db : Db} {now : Nat} {i : InsertProgram}
    {row : Program} {db1 : Db} (h : createProgram db now i = .ok (row, db1)) :
    db1.programs = db.programs ++ [row] ∧ db1.auditLog = db.auditLog ∧
      db1.nextId = db.nextId + 1 ∧ row.id = genId db.nextId ∧ row.ownerId = i.ownerId := by
  unfold createProgram at h
  split at h
  · simp only [Except.ok.injEq, Prod.mk.injEq] at h
    obtain ⟨h1, h2⟩ := h
    subst h1 h2
    simp
  · exact absurd h (by simp)

theorem createDemand_ok {db : Db} {now : Nat} {i : InsertDemand}
    {row : Demand} {db1 : Db} (h : createDemand db now i = .ok (row, db1)) :
    db1.demands = db.demands ++ [row] ∧ db1.auditLog = db.auditLog ∧
      db1.nextId = db.nextId + 1 ∧ row.id = genId db.nextId ∧ row.ownerId = i.ownerId := by
  unfold createDemand at h
  split at h
  · simp only [Except.ok.injEq, Prod.mk.injEq] at h
    obtain ⟨h1, h2⟩ := h
    subst h1 h2
    simp
  · exact absurd h (by simp)

theorem createProject_ok {db : Db} {now : Nat} {i : InsertProject}
    {row : Project} {db1 : Db} (h : createProject db now i = .ok (row, db1)) :
    db1.projects = db.projects ++ [row] ∧ db1.auditLog = db.auditLog ∧
      db1.nextId = db.nextId + 1 ∧ row.id = genId db.nextId ∧ row.ownerId = i.ownerId := by
  unfold createProject at h
  split at h
  · simp only [Except.ok.injEq, Prod.mk.injEq] at h
    obtain ⟨h1, h2⟩ := h
    subst h1 h2
    simp
  · exact absurd h (by simp)

theorem updatePortfolio_ok_some {db : Db} {now : Nat} {id : String}
    {b : PortfolioBody} {row : Portfolio} {db1 : Db}
    (h : updatePortfolio db now id b = .ok (some row, db1)) :
    db1.auditLog = db.auditLog ∧ db1.nextId = db.nextId ∧ row.id = id := by
  unfold updatePortfolio at h
  split at h
  · simp at h
  · rename_i p hf
    split at h
    · simp only [Except.ok.injEq, Prod.mk.injEq, Option.some.injEq] at h
      obtain ⟨h1, h2⟩ := h
      subst h1 h2
      have hp : p.id = id := by simpa using List.find?_some hf
      exact ⟨rfl, rfl, by simp [applyPortfolioPatch, hp]⟩
    · simp at h

theorem updatePortfolio_ok_none {db : Db} {now : Nat} {id : String}
    {b : PortfolioBody} {db1 : Db}
    (h : updatePortfolio db now id b = .ok (none, db1)) : db1 = db := by
  unfold updatePortfolio at h
  split at h
  · simp only [Except.ok.injEq, Prod.mk.injEq] at h
    exact h.2.symm
  · split at h <;> simp at h

theorem updateProject_ok_some {db : Db} {now : Nat} {id : String}
    {b : ProjectBody} {row : Project} {db1 : Db}
    (h : updateProject db now id b = .ok (some row, db1)) :
    db1.auditLog = db.auditLog ∧ db1.nextId = db.nextId ∧ row.id = id := by
  unfold updateProject at h
  split at h
  · simp at h
  · rename_i p hf
    split at h
    · simp only [Except.ok.injEq, Prod.mk.injEq, Option.some.injEq] at h
      obtain ⟨h1, h2⟩ := h
      subst h1 h2
      have hp : p.id = id := by simpa using List.find?_some hf
      exact ⟨rfl, rfl, by simp [applyProjectPatch, hp]⟩
    · simp at h

theorem updateProject_ok_none {db : Db} {now : Nat} {id : String}
    {b : ProjectBody} {db1 : Db}
    (h : updateProject db now id b = .ok (none, db1)) : db1 = db := by
  unfold updateProject at h
  split at h
  · simp only [Except.ok.injEq, Prod.mk.injEq] at h
    exact h.2.symm
  · split at h <;> simp at h

theorem deletePortfolio_ok {db : Db} {id : String} {db1 : Db}
    (h : deletePortfolio db id = .ok db1) :
    db1.auditLog = db.auditLog ∧ db1.nextId = db.nextId ∧
      db1.portfolios = db.portfolios.filter (fun p => !(p.id == id)) := by
  unfold deletePortfolio at h
  split at h
  · simp at h
  · simp only [Except.ok.injEq] at h
    subst h
    simp

theorem createAuditLog_ok {db : Db} {now : Nat} {i : InsertAuditLog}
    {row : AuditLog} {db1 : Db} (h : createAuditLog db now i = .ok (row, db1)) :
    db1 = { db with
      auditLog := db.auditLog ++
        [⟨genId db.nextId, i.entityType, i.entityId, i.changeType, i.changedBy, i.details, now⟩],
      nextId := db.nextId + 1 } := by
  unfold createAuditLog at h
  split at h
  · simp only [Except.ok.injEq, Prod.mk.injEq] at h
    obtain ⟨h1, h2⟩ := h
    subst h1 h2
    rfl
  · exact absurd h (by simp)

/-! Claim theorems. -/

/-- C1: for every create/update/delete mutation on a core entity registered
in `routes.ts`, when the handler answers its success status (201 create,
200 update, 204 delete) the audit log has grown by exactly one row whose
entityType, entityId and changeType match the mutation and whose changedBy is
the acting user's id; and any non-success outcome — in particular a failed
entity write, which the handler hits before ever calling `createAuditLog` —
leaves the audit log unchanged.  `routes.ts` registers no Product mutation
endpoint, so the quantification over mutations covers every core-entity
mutation the server exposes. -/
theorem C1_audit_pairing (db : Db) (now : Nat) (actor : String) (m : Mutation) :
    ((runMutation db now actor m).status = successCode m →
      ∃ aid d, (runMutation db now actor m).db.auditLog =
        db.auditLog ++
          [⟨aid, mutEntityType m, mutEntityId db m, mutChangeType m, actor, d, now⟩]) ∧
    ((runMutation db now actor m).status ≠ successCode m →
      (runMutation db now actor m).db.auditLog = db.auditLog) := by
  cases m with
  | createPortfolioM b =>
    simp only [runMutation, successCode, mutEntityType, mutEntityId, mutChangeType]
    unfold postPortfoliosRoute
    cases hp : parseInsertPortfolio { b with ownerId := some actor } with
    | error e => simp [hp]
    | ok ins =>
      cases hc : createPortfolio db now ins with
      | error e => simp [hp, hc]
      | ok pr =>
        obtain ⟨row, db1⟩ := pr
        obtain ⟨-, hca, hcn, hcid, -⟩ := createPortfolio_ok hc
        cases ha : createAuditLog db1 now
            ⟨"portfolio", row.id, "created", actor, .portfolioSnap row⟩ with
        | error e => simp [hp, hc, ha, hca]
        | ok pr2 =>
          obtain ⟨arow, db2⟩ := pr2
          have h2 := createAuditLog_ok ha
          simp only [hp, hc, ha]
          constructor
          · intro _
            exact ⟨genId db1.nextId, .portfolioSnap row, by simp [h2, hca, hcid]⟩
          · intro hne
            exact absurd rfl hne
  | updatePortfolioM id b =>
    simp only [runMutation, successCode, mutEntityType, mutEntityId, mutChangeType]
    unfold putPortfolioRoute
    cases hu : updatePortfolio db now id b with
    | error e => simp [hu]
    | ok pr =>
      obtain ⟨ropt, db1⟩ := pr
      cases ropt with
      | none =>
        have hnone := updatePortfolio_ok_none hu
        subst hnone
        simp [hu]
      | some row =>
        obtain ⟨hua, hun, hid⟩ := updatePortfolio_ok_some hu
        cases ha : createAuditLog db1 now
            ⟨"portfolio", row.id, "updated", actor, .portfolioUpdates b⟩ with
        | error e => simp [hu, ha, hua]
        | ok pr2 =>
          obtain ⟨arow, db2⟩ := pr2
          have h2 := createAuditLog_ok ha
          simp only [hu, ha]
          constructor
          · intro _
            exact ⟨genId db1.nextId, .portfolioUpdates b, by simp [h2, hua, hid]⟩
          · intro hne
            exact absurd rfl hne
  | deletePortfolioM id =>
    simp only [runMutation, successCode, mutEntityType, mutEntityId, mutChangeType]
    unfold deletePortfolioRoute
    cases hd : deletePortfolio db id with
    | error e => simp [hd]
    | ok db1 =>
      obtain ⟨hda, hdn, -⟩ := deletePortfolio_ok hd
      cases ha : createAuditLog db1 now ⟨"portfolio", id, "deleted", actor, .emptyD⟩ with
      | error e => simp [hd, ha, hda]
      | ok pr2 =>
        obtain ⟨arow, db2⟩ := pr2
        have h2 := createAuditLog_ok ha
        simp only [hd, ha]
        constructor
        · intro _
          exact ⟨genId db1.nextId, .emptyD, by simp [h2, hda]⟩
        · intro hne
          exact absurd rfl hne
  | createProgramM b =>
    simp only [runMutation, successCode, mutEntityType, mutEntityId, mutChangeType]
    unfold postProgramsRoute
    cases hp : parseInsertProgram { b with ownerId := some actor } with
    | error e => simp [hp]
    | ok ins =>
      cases hc : createProgram db now ins with
      | error e => simp [hp, hc]
      | ok pr =>
        obtain ⟨row, db1⟩ := pr
        obtain ⟨-, hca, hcn, hcid, -⟩ := createProgram_ok hc
        cases ha : createAuditLog db1 now
            ⟨"program", row.id, "created", actor, .programSnap row⟩ with
        | error e => simp [hp, hc, ha, hca]
        | ok pr2 =>
          obtain ⟨arow, db2⟩ := pr2
          have h2 := createAuditLog_ok ha
          simp only [hp, hc, ha]
          constructor
          · intro _
            exact ⟨genId db1.nextId, .programSnap row, by simp [h2, hca, hcid]⟩
          · intro hne
            exact absurd rfl hne
  | createDemandM b =>
    simp only [runMutation, successCode, mutEntityType, mutEntityId, mutChangeType]
    unfold postDemandsRoute
    cases hp : parseInsertDemand { b with ownerId := some actor } with
    | error e => simp [hp]
    | ok ins =>
      cases hc : createDemand db now ins with
      | error e => simp [hp, hc]
      | ok pr =>
        obtain ⟨row, db1⟩ := pr
        obtain ⟨-, hca, hcn, hcid, -⟩ := createDemand_ok hc
        cases ha : createAuditLog db1 now
            ⟨"demand", row.id, "created", actor, .demandSnap row⟩ with
        | error e => simp [hp, hc, ha, hca]
        | ok pr2 =>
          obtain ⟨arow, db2⟩ := pr2
          have h2 := createAuditLog_ok ha
          simp only [hp, hc, ha]
          constructor
          · intro _
            exact ⟨genId db1.nextId, .demandSnap row, by simp [h2, hca, hcid]⟩
          · intro hne
            exact absurd rfl hne
  | createProjectM b =>
    simp only [runMutation, successCode, mutEntityType, mutEntityId, mutChangeType]
    unfold postProjectsRoute
    cases hp : parseInsertProject { b with ownerId := some actor } with
    | error e => simp [hp]
    | ok ins =>
      cases hc : createProject db now ins with
      | error e => simp [hp, hc]
      | ok pr =>
        obtain ⟨row, db1⟩ := pr
        obtain ⟨-, hca, hcn, hcid, -⟩ := createProject_ok hc
        cases ha : createAuditLog db1 now
            ⟨"project", row.id, "created", actor, .projectSnap row⟩ with
        | error e => simp [hp, hc, ha, hca]
        | ok pr2 =>
          obtain ⟨arow, db2⟩ := pr2
          have h2 := createAuditLog_ok ha
          simp only [hp, hc, ha]
          constructor
          · intro _
            exact ⟨genId db1.nextId, .projectSnap row, by simp [h2, hca, hcid]⟩
          · intro hne
            exact absurd rfl hne
  | updateProjectM id b =>
    simp only [runMutation, successCode, mutEntityType, mutEntityId, mutChangeType]
    unfold putProjectRoute
    cases hu : updateProject db now id b with
    | error e => simp [hu]
    | ok pr =>
      obtain ⟨ropt, db1⟩ := pr
      cases ropt with
      | none =>
        have hnone := updateProject_ok_none hu
        subst hnone
        simp [hu]
      | some row =>
        obtain ⟨hua, hun, hid⟩ := updateProject_ok_some hu
        cases ha : createAuditLog db1 now
            ⟨"project", row.id, "updated", actor, .projectUpdates b⟩ with
        | error e => simp [hu, ha, hua]
        | ok pr2 =>
          obtain ⟨arow, db2⟩ := pr2
          have h2 := createAuditLog_ok ha
          simp only [hu, ha]
          constructor
          · intro _
            exact ⟨genId db1.nextId, .projectUpdates b, by simp [h2, hua, hid]⟩
          · intro hne
            exact absurd rfl hne

/-- Witness for C1: a concrete successful portfolio creation appends exactly
one matching audit row. -/
theorem C1_audit_pairing_witness :
    (runMutation dbWithProgram 4 "u1" (.createPortfolioM pfBody1)).status =
        successCode (.createPortfolioM pfBody1) ∧
    ∃ aid d, (runMutation dbWithProgram 4 "u1" (.createPortfolioM pfBody1)).db.auditLog =
      dbWithProgram.auditLog ++
        [⟨aid, mutEntityType (.createPortfolioM pfBody1),
          mutEntityId dbWithProgram (.createPortfolioM pfBody1),
          mutChangeType (.createPortfolioM pfBody1), "u1", d, 4⟩] :=
  ⟨by decide, (C1_audit_pairing dbWithProgram 4 "u1" (.createPortfolioM pfBody1)).1 (by decide)⟩

/-- C2: listing Programs with a parent filter `f` (a portfolio id, hence a
nonempty generated uuid) returns exactly the programs whose portfolioId is
`f`, and listing without a filter returns all programs.  The handler passes
`req.query.portfolioId` through a JS truthy check, so only the empty string —
never a real portfolio id — would disable the filter. -/
theorem C2_program_parent_scoping (db : Db) (f : String) (hf : f ≠ "") :
    (∀ g, g ∈ getPrograms db (some f) ↔ g ∈ db.programs ∧ g.portfolioId = f) ∧
    (∀ g, g ∈ getPrograms db none ↔ g ∈ db.programs) := by
  constructor
  · intro g
    have ht : strTruthy (some f) = true := by simp [strTruthy, hf]
    simp [getPrograms, ht, mem_sortBy, List.mem_filter]
  · intro g
    simp [getPrograms, strTruthy, mem_sortBy]

/-- Witness for C2: in a store with programs under two portfolios, filtering
by "f1" returns `prog1` and excludes `prog2`. -/
theorem C2_program_parent_scoping_witness :
    prog1 ∈ getPrograms dbTwoPrograms (some "f1") ∧
    prog2 ∉ getPrograms dbTwoPrograms (some "f1") := by
  have h := (C2_program_parent_scoping dbTwoPrograms "f1" (by decide)).1
  constructor
  · exact (h prog1).mpr (by decide)
  · intro hmem
    exact absurd ((h prog2).mp hmem) (by decide)

/-- C3: the claim (and the `// 0-100` comment on `projects.progress`) says an
out-of-range progress is a validation error on create and on update, but
`insertProjectSchema` (and its `.partial()`) carries no range bound, so
`POST /api/projects` with progress 101 (or -1) answers 201 and
`PUT /api/projects/:id` with progress 101 (or -1) answers 200, both storing
the out-of-range value verbatim; 0 and 100 are accepted as claimed. -/
theorem C3_progress_bound_not_enforced :
    (postProjectsRoute dbWithProgram 5 "u1" (progressBody 101)).status = 201 ∧
    (postProjectsRoute dbWithProgram 5 "u1" (progressBody 101)).db.projects.map
        (fun p => p.progress) = [some 101] ∧
    (postProjectsRoute dbWithProgram 5 "u1" (progressBody (-1))).status = 201 ∧
    (postProjectsRoute dbWithProgram 5 "u1" (progressBody (-1))).db.projects.map
        (fun p => p.progress) = [some (-1)] ∧
    (putProjectRoute dbScenarioB 6 "u1" "p1" (progressPatch 101)).status = 200 ∧
    (putProjectRoute dbScenarioB 6 "u1" "p1" (progressPatch 101)).db.projects.map
        (fun p => p.progress) = [some 101] ∧
    (putProjectRoute dbScenarioB 6 "u1" "p1" (progressPatch (-1))).status = 200 ∧
    (putProjectRoute dbScenarioB 6 "u1" "p1" (progressPatch (-1))).db.projects.map
        (fun p => p.progress) = [some (-1)] ∧
    (postProjectsRoute dbWithProgram 5 "u1" (progressBody 0)).status = 201 ∧
    (postProjectsRoute dbWithProgram 5 "u1" (progressBody 100)).status = 201 ∧
    (putProjectRoute dbScenarioB 6 "u1" "p1" (progressPatch 0)).status = 200 ∧
    (putProjectRoute dbScenarioB 6 "u1" "p1" (progressPatch 100)).status = 200 := by
  decide

/-- Counterexample for C4: the claim says matching is case-insensitive, but
`searchUsers` uses SQL `LIKE` (not `ILIKE`).  A user whose first name is
"Alice" matches the query "alice" case-insensitively, yet the search returns
nothing. -/
theorem C4_counterexample :
    aliceUser ∈ dbAlice.users ∧
    specContainsCI "Alice" "alice" = true ∧
    (usersSearchRoute dbAlice (some "alice")).1 = [] := by
  decide

theorem anySuffix_isEmpty (t : List Char) :
    anySuffix (fun s => s.isEmpty) t = true := by
  induction t with
  | nil => rfl
  | cons c t ih => simp [anySuffix, ih]

theorem like_clean_lit (q : List Char)
    (hq : ∀ c ∈ q, c ≠ '%' ∧ c ≠ '_' ∧ c ≠ '\\') (t : List Char) :
    likeMatch (q ++ ['%']) t = charsAtStart q t := by
  induction q generalizing t with
  | nil =>
    show likeMatch ['%'] t = charsAtStart [] t
    have h1 : likeMatch ['%'] t = anySuffix (likeMatch []) t := by
      rw [likeMatch.eq_def]
      simp
    have h2 : likeMatch [] = fun s : List Char => s.isEmpty := by
      rw [likeMatch.eq_def]
    rw [h1, h2, anySuffix_isEmpty]
    cases t <;> rfl
  | cons c q' ih =>
    obtain ⟨hc1, hc2, hc3⟩ := hq c (by simp)
    have hq' : ∀ d ∈ q', d ≠ '%' ∧ d ≠ '_' ∧ d ≠ '\\' := fun d hd => hq d (by simp [hd])
    cases t with
    | nil =>
      rw [likeMatch.eq_def]
      simp [hc1, hc2, hc3, charsAtStart]
    | cons d t' =>
      rw [likeMatch.eq_def]
      simp [hc1, hc2, hc3, charsAtStart, ih hq' t', eq_comm]

theorem anySuffix_charsAtStart (q : List Char) (s : List Char) :
    anySuffix (charsAtStart q) s = charsHave q s := by
  induction s with
  | nil => cases q <;> rfl
  | cons b rest ih => simp [anySuffix, charsHave, ih]

theorem likeMatch_clean (q : List Char)
    (hq : ∀ c ∈ q, c ≠ '%' ∧ c ≠ '_' ∧ c ≠ '\\') (s : List Char) :
    likeMatch ('%' :: (q ++ ['%'])) s = charsHave q s := by
  have h1 : likeMatch ('%' :: (q ++ ['%'])) s =
      anySuffix (likeMatch (q ++ ['%'])) s := by
    rw [likeMatch.eq_def]
    simp
  have h2 : likeMatch (q ++ ['%']) = charsAtStart q :=
    funext (like_clean_lit q hq)
  rw [h1, h2, anySuffix_charsAtStart]

theorem pattern_data (q : String) :
    ("%" ++ q ++ "%").data = '%' :: (q.data ++ ['%']) := by
  rw [String.data_append, String.data_append]
  rfl

theorem colLike_clean {q : String}
    (hq : ∀ c ∈ q.data, c ≠ '%' ∧ c ≠ '_' ∧ c ≠ '\\') (c : Option String) :
    colLikeQuery q c = colHasQuery q c := by
  cases c with
  | none => rfl
  | some s =>
    show likeMatch ("%" ++ q ++ "%").data s.data = strHas s q
    rw [pattern_data, likeMatch_clean q.data hq]
    rfl

/-- C4 as amended: with a non-empty query the search returns at most 20 rows;
a returned row is a stored user whose first name, last name, or email matches
the SQL pattern `'%' ++ q ++ '%'` case-SENSITIVELY (the handler interpolates
the raw query, so `%` and `_` inside it act as LIKE wildcards and backslash
escapes); whenever at most 20 rows match, exactly the matching rows are
returned; for a query free of `%`, `_` and the escape character, matching the
pattern is exactly case-sensitive substring containment; an empty or absent
query short-circuits to the empty list without querying storage. -/
theorem C4_search_contract (db : Db) (q : String) (hq : q ≠ "") :
    usersSearchRoute db none = ([], false) ∧
    usersSearchRoute db (some "") = ([], false) ∧
    (usersSearchRoute db (some q)).1.length ≤ 20 ∧
    (∀ u ∈ (usersSearchRoute db (some q)).1, u ∈ db.users ∧ userLikeMatch q u = true) ∧
    ((db.users.filter (userLikeMatch q)).length ≤ 20 →
      ∀ u ∈ db.users, userLikeMatch q u = true → u ∈ (usersSearchRoute db (some q)).1) ∧
    ((∀ c ∈ q.data, c ≠ '%' ∧ c ≠ '_' ∧ c ≠ '\\') →
      ∀ u : User, userLikeMatch q u =
        (colHasQuery q u.firstName || colHasQuery q u.lastName || colHasQuery q u.email)) := by
  have ht : strTruthy (some q) = true := by simp [strTruthy, hq]
  refine ⟨by simp [usersSearchRoute, strTruthy], by simp [usersSearchRoute, strTruthy],
    ?_, ?_, ?_, ?_⟩
  · simp only [usersSearchRoute, ht, if_true, searchUsers, Option.getD_some]
    exact List.length_take_le 20 _
  · intro u hu
    simp only [usersSearchRoute, ht, if_true, searchUsers, Option.getD_some] at hu
    have h2 := List.mem_of_mem_take hu
    exact ⟨(List.mem_filter.mp h2).1, (List.mem_filter.mp h2).2⟩
  · intro hlen u hu hm
    simp only [usersSearchRoute, ht, if_true, searchUsers, Option.getD_some]
    rw [List.take_of_length_le hlen]
    exact List.mem_filter.mpr ⟨hu, hm⟩
  · intro hc u
    unfold userLikeMatch
    rw [colLike_clean hc, colLike_clean hc, colLike_clean hc]

/-- Witness for C4: the wildcard-free, case-sensitive query "Ali" does return
Alice, via the exactness conjunct of the contract. -/
theorem C4_search_contract_witness :
    aliceUser ∈ (usersSearchRoute dbAlice (some "Ali")).1 :=
  (C4_search_contract dbAlice "Ali" (by decide)).2.2.2.2.1 (by decide) aliceUser
    (by decide) (by decide)

/-- Counterexample for C5: updating a portfolio id that does not exist does
not answer a 404-equivalent; the storage layer returns `undefined`, the
handler dereferences `portfolio.id`, and the catch block answers 500.  No row
is fabricated. -/
theorem C5_counterexample :
    (putPortfolioRoute dbEmpty 7 "u1" "missing" emptyPortfolioBody).status = 500 ∧
    (putPortfolioRoute dbEmpty 7 "u1" "missing" emptyPortfolioBody).status ≠ 404 ∧
    (putPortfolioRoute dbEmpty 7 "u1" "missing" emptyPortfolioBody).db = dbEmpty := by
  decide

/-- C5 as amended: update on a missing portfolio id is an error, but it is
surfaced as a 500-equivalent (a TypeError on `undefined`, not a NotFound
check); the store is left completely unchanged, and a delete on a missing id
fabricates no portfolio row. -/
theorem C5_missing_id_no_fabrication (db : Db) (now : Nat) (actor id : String)
    (b : PortfolioBody) (h : ∀ p ∈ db.portfolios, p.id ≠ id) :
    putPortfolioRoute db now actor id b = ⟨500, db⟩ ∧
    (deletePortfolioRoute db now actor id).db.portfolios = db.portfolios := by
  have hf : db.portfolios.find? (fun p => p.id == id) = none := by
    rw [List.find?_eq_none]
    intro p hp
    simp [h p hp]
  constructor
  · unfold putPortfolioRoute updatePortfolio
    rw [hf]
  · unfold deletePortfolioRoute
    cases hd : deletePortfolio db id with
    | error e => simp [hd]
    | ok db1 =>
      obtain ⟨hda, hdn, hdp⟩ := deletePortfolio_ok hd
      have hfil : db1.portfolios = db.portfolios := by
        rw [hdp]
        apply List.filter_eq_self.mpr
        intro p hp
        simp [h p hp]
      cases ha : createAuditLog db1 now ⟨"portfolio", id, "deleted", actor, .emptyD⟩ with
      | error e => simp [hd, ha, hfil]
      | ok pr =>
        obtain ⟨arow, db2⟩ := pr
        have h2 := createAuditLog_ok ha
        simp [hd, ha, h2, hfil]

/-- Witness for C5: the amended behavior at a concrete empty store. -/
theorem C5_missing_id_no_fabrication_witness :
    putPortfolioRoute dbEmpty 7 "u1" "missing" emptyPortfolioBody = ⟨500, dbEmpty⟩ :=
  (C5_missing_id_no_fabrication dbEmpty 7 "u1" "missing" emptyPortfolioBody (by decide)).1

/-- Counterexample for C6: with a Demand and a Project whose demandId points
at it (Scenario B), deleting the Demand does not succeed and orphan the
reference — `projects.demandId` is a real foreign key, so the delete raises a
foreign-key violation. -/
theorem C6_counterexample :
    dem1 ∈ dbScenarioB.demands ∧
    projRef ∈ dbScenarioB.projects ∧
    projRef.demandId = some dem1.id ∧
    deleteDemand dbScenarioB "d1" = .error .fkViolation :=
  ⟨by decide, by decide, rfl, rfl⟩

/-- C6 as amended: deleting a Demand that a Project still references is
blocked by the `projects.demandId -> demands.id` foreign key (the statement
errors and nothing changes — in particular there is no cascade); deleting a
Demand no Project references hard-deletes it and touches no project row. -/
theorem C6_delete_demand_fk (db : Db) (id : String) :
    (db.demands.any (fun d => d.id == id) = true →
      db.projects.any (fun p => p.demandId == some id) = true →
      deleteDemand db id = .error .fkViolation) ∧
    (db.projects.any (fun p => p.demandId == some id) = false →
      ∃ db', deleteDemand db id = .ok db' ∧
        db'.demands = db.demands.filter (fun d => !(d.id == id)) ∧
        db'.projects = db.projects) := by
  constructor
  · intro h1 h2
    unfold deleteDemand
    rw [h1, h2]
    rfl
  · intro h2
    unfold deleteDemand
    rw [h2]
    simp

/-- Witness for C6: the blocked branch at the Scenario B store. -/
theorem C6_delete_demand_fk_witness :
    deleteDemand dbScenarioB "d1" = .error .fkViolation :=
  (C6_delete_demand_fk dbScenarioB "d1").1 (by decide) (by decide)

/-- Counterexample for C7: a Phase-create payload without `order` does not
succeed with a sequence-assigned order — `order` is a required field of
`insertPhaseSchema` (not-null column, no default, no assignment code
anywhere), so the request fails validation with 400 and writes nothing. -/
theorem C7_counterexample :
    postPhasesRoute dbEmpty phaseBodyNoOrder = ⟨400, dbEmpty⟩ := by
  decide

/-- C7 as amended: `order` is required: a payload without it is rejected as a
validation error (400, nothing written); a payload carrying name, type and
order succeeds with 201 and stores exactly the caller-supplied order. -/
theorem C7_phase_order_required (db : Db) (b : PhaseBody) :
    (b.order = none → postPhasesRoute db b = ⟨400, db⟩) ∧
    (∀ n nm ty, b.name = some nm → b.type = some ty → b.order = some n →
      ∃ row db', postPhasesRoute db b = ⟨201, db'⟩ ∧
        db'.phases = db.phases ++ [row] ∧ row.order = n) := by
  constructor
  · intro h
    cases hn : b.name <;> cases ht : b.type <;>
      simp [postPhasesRoute, parseInsertPhase, hn, ht, h]
  · intro n nm ty h1 h2 h3
    unfold postPhasesRoute parseInsertPhase createPhase
    simp only [h1, h2, h3]
    exact ⟨_, _, rfl, rfl, rfl⟩

/-- Witness for C7: both branches at a concrete store. -/
theorem C7_phase_order_required_witness :
    postPhasesRoute dbEmpty phaseBodyNoOrder = ⟨400, dbEmpty⟩ ∧
    ∃ row db', postPhasesRoute dbEmpty ⟨some "Idea", some "demand", some 1, none⟩ =
        ⟨201, db'⟩ ∧ db'.phases = dbEmpty.phases ++ [row] ∧ row.order = 1 :=
  ⟨(C7_phase_order_required dbEmpty phaseBodyNoOrder).1 rfl,
   (C7_phase_order_required dbEmpty ⟨some "Idea", some "demand", some 1, none⟩).2
     1 "Idea" "demand" rfl rfl rfl⟩

theorem parseInsertPortfolio_ownerId {b : PortfolioBody} {ins : InsertPortfolio}
    (h : parseInsertPortfolio b = .ok ins) : some ins.ownerId = b.ownerId := by
  unfold parseInsertPortfolio at h
  split at h
  · rename_i n o h1 h2
    simp only [Except.ok.injEq] at h
    rw [← h, h2]
  · simp at h

theorem parseInsertProgram_ownerId {b : ProgramBody} {ins : InsertProgram}
    (h : parseInsertProgram b = .ok ins) : some ins.ownerId = b.ownerId := by
  unfold parseInsertProgram at h
  split at h
  · rename_i n f o h1 h2 h3
    simp only [Except.ok.injEq] at h
    rw [← h, h3]
  · simp at h

theorem parseInsertDemand_ownerId {b : DemandBody} {ins : InsertDemand}
    (h : parseInsertDemand b = .ok ins) : some ins.ownerId = b.ownerId := by
  unfold parseInsertDemand at h
  split at h
  · rename_i t g o h1 h2 h3
    simp only [Except.ok.injEq] at h
    rw [← h, h3]
  · simp at h

theorem parseInsertProject_ownerId {b : ProjectBody} {ins : InsertProject}
    (h : parseInsertProject b = .ok ins) : some ins.ownerId = b.ownerId := by
  unfold parseInsertProject at h
  split at h
  · rename_i t g o h1 h2 h3
    simp only [Except.ok.injEq] at h
    rw [← h, h3]
  · simp at h

/-- C8: for every create of a core entity, the stored row's ownerId is the
authenticated actor's id regardless of any ownerId in the request payload:
the handler parses `{...req.body, ownerId: userId}`, so two requests from the
same actor that differ only in the payload's ownerId are indistinguishable
(the respective route applications are equal), and a successful create
appends a row owned by the actor. -/
theorem C8_create_stamps_owner (db : Db) (now : Nat) (actor : String) :
    ((∀ (b : PortfolioBody) (o1 o2 : Option String),
        postPortfoliosRoute db now actor { b with ownerId := o1 } =
          postPortfoliosRoute db now actor { b with ownerId := o2 }) ∧
      ∀ b : PortfolioBody, (postPortfoliosRoute db now actor b).status = 201 →
        ∃ row, (postPortfoliosRoute db now actor b).db.portfolios = db.portfolios ++ [row] ∧
          row.ownerId = actor) ∧
    ((∀ (b : ProgramBody) (o1 o2 : Option String),
        postProgramsRoute db now actor { b with ownerId := o1 } =
          postProgramsRoute db now actor { b with ownerId := o2 }) ∧
      ∀ b : ProgramBody, (postProgramsRoute db now actor b).status = 201 →
        ∃ row, (postProgramsRoute db now actor b).db.programs = db.programs ++ [row] ∧
          row.ownerId = actor) ∧
    ((∀ (b : DemandBody) (o1 o2 : Option String),
        postDemandsRoute db now actor { b with ownerId := o1 } =
          postDemandsRoute db now actor { b with ownerId := o2 }) ∧
      ∀ b : DemandBody, (postDemandsRoute db now actor b).status = 201 →
        ∃ row, (postDemandsRoute db now actor b).db.demands = db.demands ++ [row] ∧
          row.ownerId = actor) ∧
    ((∀ (b : ProjectBody) (o1 o2 : Option String),
        postProjectsRoute db now actor { b with ownerId := o1 } =
          postProjectsRoute db now actor { b with ownerId := o2 }) ∧
      ∀ b : ProjectBody, (postProjectsRoute db now actor b).status = 201 →
        ∃ row, (postProjectsRoute db now actor b).db.projects = db.projects ++ [row] ∧
          row.ownerId = actor) := by
  refine ⟨⟨fun b o1 o2 => rfl, ?_⟩, ⟨fun b o1 o2 => rfl, ?_⟩,
    ⟨fun b o1 o2 => rfl, ?_⟩, ⟨fun b o1 o2 => rfl, ?_⟩⟩
  · intro b hs
    unfold postPortfoliosRoute at *
    cases hp : parseInsertPortfolio { b with ownerId := some actor } with
    | error e => simp [hp] at hs
    | ok ins =>
      have hoi : ins.ownerId = actor := by
        have := parseInsertPortfolio_ownerId hp
        simpa using this
      cases hc : createPortfolio db now ins with
      | error e => simp [hp, hc] at hs
      | ok pr =>
        obtain ⟨row, db1⟩ := pr
        obtain ⟨hcp, -, -, -, hco⟩ := createPortfolio_ok hc
        cases ha : createAuditLog db1 now
            ⟨"portfolio", row.id, "created", actor, .portfolioSnap row⟩ with
        | error e => simp [hp, hc, ha] at hs
        | ok pr2 =>
          obtain ⟨arow, db2⟩ := pr2
          have h2 := createAuditLog_ok ha
          refine ⟨row, ?_, by rw [hco, hoi]⟩
          simp [hp, hc, ha, h2, hcp]
  · intro b hs
    unfold postProgramsRoute at *
    cases hp : parseInsertProgram { b with ownerId := some actor } with
    | error e => simp [hp] at hs
    | ok ins =>
      have hoi : ins.ownerId = actor := by
        have := parseInsertProgram_ownerId hp
        simpa using this
      cases hc : createProgram db now ins with
      | error e => simp [hp, hc] at hs
      | ok pr =>
        obtain ⟨row, db1⟩ := pr
        obtain ⟨hcp, -, -, -, hco⟩ := createProgram_ok hc
        cases ha : createAuditLog db1 now
            ⟨"program", row.id, "created", actor, .programSnap row⟩ with
        | error e => simp [hp, hc, ha] at hs
        | ok pr2 =>
          obtain ⟨arow, db2⟩ := pr2
          have h2 := createAuditLog_ok ha
          refine ⟨row, ?_, by rw [hco, hoi]⟩
          simp [hp, hc, ha, h2, hcp]
  · intro b hs
    unfold postDemandsRoute at *
    cases hp : parseInsertDemand { b with ownerId := some actor } with
    | error e => simp [hp] at hs
    | ok ins =>
      have hoi : ins.ownerId = actor := by
        have := parseInsertDemand_ownerId hp
        simpa using this
      cases hc : createDemand db now ins with
      | error e => simp [hp, hc] at hs
      | ok pr =>
        obtain ⟨row, db1⟩ := pr
        obtain ⟨hcp, -, -, -, hco⟩ := createDemand_ok hc
        cases ha : createAuditLog db1 now
            ⟨"demand", row.id, "created", actor, .demandSnap row⟩ with
        | error e => simp [hp, hc, ha] at hs
        | ok pr2 =>
          obtain ⟨arow, db2⟩ := pr2
          have h2 := createAuditLog_ok ha
          refine ⟨row, ?_, by rw [hco, hoi]⟩
          simp [hp, hc, ha, h2, hcp]
  · intro b hs
    unfold postProjectsRoute at *
    cases hp : parseInsertProject { b with ownerId := some actor } with
    | error e => simp [hp] at hs
    | ok ins =>
      have hoi : ins.ownerId = actor := by
        have := parseInsertProject_ownerId hp
        simpa using this
      cases hc : createProject db now ins with
      | error e => simp [hp, hc] at hs
      | ok pr =>
        obtain ⟨row, db1⟩ := pr
        obtain ⟨hcp, -, -, -, hco⟩ := createProject_ok hc
        cases ha : createAuditLog db1 now
            ⟨"project", row.id, "created", actor, .projectSnap row⟩ with
        | error e => simp [hp, hc, ha] at hs
        | ok pr2 =>
          obtain ⟨arow, db2⟩ := pr2
          have h2 := createAuditLog_ok ha
          refine ⟨row, ?_, by rw [hco, hoi]⟩
          simp [hp, hc, ha, h2, hcp]

/-- Witness for C8: a concrete successful create stores the actor as owner. -/
theorem C8_create_stamps_owner_witness :
    ∃ row, (postPortfoliosRoute dbWithProgram 4 "u1"
        { pfBody1 with ownerId := some "someone-else" }).db.portfolios =
      dbWithProgram.portfolios ++ [row] ∧ row.ownerId = "u1" :=
  (C8_create_stamps_owner dbWithProgram 4 "u1").1.2
    { pfBody1 with ownerId := some "someone-else" } (by decide)

theorem applyPhasePatch_disable (p : Phase) :
    applyPhasePatch p disablePatch = { p with isActive := false } := rfl

theorem find?_map_disable (l : List Phase) (id : String) (p : Phase)
    (h : l.find? (fun q => q.id == id) = some p) :
    (l.map (fun q => if q.id == id then applyPhasePatch q disablePatch else q)).find?
      (fun q => q.id == id) = some (applyPhasePatch p disablePatch) := by
  induction l with
  | nil => simp at h
  | cons a l ih =>
    by_cases ha : (a.id == id) = true
    · rw [List.find?_cons_of_pos (p := fun q : Phase => q.id == id) _ ha] at h
      rw [List.map_cons, if_pos ha]
      rw [List.find?_cons_of_pos (p := fun q : Phase => q.id == id) _
        (show ((applyPhasePatch a disablePatch).id == id) = true from ha)]
      simp only [Option.some.injEq] at h
      rw [h]
    · rw [List.find?_cons_of_neg (p := fun q : Phase => q.id == id) _ (by simpa using ha)] at h
      rw [List.map_cons, if_neg ha]
      rw [List.find?_cons_of_neg (p := fun q : Phase => q.id == id) _ (by simpa using ha)]
      exact ih h

theorem mem_getPhases_isActive {db : Db} {ty : Option String} {q : Phase}
    (h : q ∈ getPhases db ty) : q.isActive = true ∧ q ∈ db.phases := by
  unfold getPhases at h
  split at h <;> rw [mem_sortBy, List.mem_filter] at h
  · obtain ⟨h1, h2⟩ := h
    simp only [Bool.and_eq_true] at h2
    exact ⟨h2.2, h1⟩
  · exact ⟨h.2, h.1⟩

theorem getPhases_typed {db : Db} {t : String} (ht : t ≠ "") {q : Phase}
    (h : q ∈ getPhases db (some t)) : q.isActive = true ∧ q.type = t := by
  have hst : strTruthy (some t) = true := by simp [strTruthy, ht]
  unfold getPhases at h
  rw [hst] at h
  simp only [if_true] at h
  rw [mem_sortBy, List.mem_filter] at h
  obtain ⟨-, h2⟩ := h
  simp only [Bool.and_eq_true, beq_iff_eq, Option.some.injEq] at h2
  exact ⟨h2.2, h2.1⟩

/-- C9: after setting a Phase's isActive to false through the storage update,
the phase no longer appears in any `getPhases` listing (a listing returns
only active rows of the requested type, ordered by `order` ascending), yet
`getPhase` by id still resolves it, so a Demand referencing the phase keeps
resolving it. -/
theorem C9_phase_soft_disable (db : Db) (id : String) (p : Phase)
    (h : getPhase db id = some p) :
    getPhase (updatePhase db id disablePatch).2 id = some { p with isActive := false } ∧
    (∀ ty q, q ∈ getPhases (updatePhase db id disablePatch).2 ty → q.id ≠ id) ∧
    (∀ t, t ≠ "" → ∀ q ∈ getPhases (updatePhase db id disablePatch).2 (some t),
      q.isActive = true ∧ q.type = t) ∧
    (∀ ty, (getPhases (updatePhase db id disablePatch).2 ty).Pairwise
      (fun a b => a.order ≤ b.order)) := by
  unfold getPhase at h
  have hup : (updatePhase db id disablePatch).2 =
      { db with phases :=
          db.phases.map (fun q => if q.id == id then applyPhasePatch q disablePatch else q) } := by
    unfold updatePhase
    rw [h]
  refine ⟨?_, ?_, ?_, ?_⟩
  · rw [hup]
    unfold getPhase
    rw [find?_map_disable db.phases id p h, applyPhasePatch_disable]
  · intro ty q hq
    rw [hup] at hq
    obtain ⟨hact, hmem⟩ := mem_getPhases_isActive hq
    rw [List.mem_map] at hmem
    obtain ⟨orig, horig, hfq⟩ := hmem
    intro hqid
    by_cases ho : (orig.id == id) = true
    · rw [if_pos ho] at hfq
      rw [← hfq, applyPhasePatch_disable] at hact
      simp at hact
    · rw [if_neg ho] at hfq
      rw [← hfq] at hqid
      exact absurd (by simpa using hqid) ho
  · intro t ht q hq
    rw [hup] at hq
    exact getPhases_typed ht hq
  · intro ty
    have htr : ∀ a b c : Phase, phaseOrderLe a b = true → phaseOrderLe b c = true →
        phaseOrderLe a c = true := by
      intro a b c
      simp only [phaseOrderLe, decide_eq_true_eq]
      omega
    have hto : ∀ a b : Phase, (phaseOrderLe a b || phaseOrderLe b a) = true := by
      intro a b
      simp only [phaseOrderLe, Bool.or_eq_true, decide_eq_true_eq]
      omega
    unfold getPhases
    split <;>
      exact List.Pairwise.imp
        (fun hab => by simpa [phaseOrderLe] using hab)
        (pairwise_sortBy htr hto _)

/-- Witness for C9: disabling the seeded "Idea" phase hides it from listings
but it still resolves by id. -/
theorem C9_phase_soft_disable_witness :
    getPhase (updatePhase dbPhases "h1" disablePatch).2 "h1" =
      some { ph1 with isActive := false } :=
  (C9_phase_soft_disable dbPhases "h1" ph1 (by decide)).1

/-- C10: `DatabaseStorage` defines no `updateUser` method even though the
role-update handler calls `storage.updateUser`, so any request whose actor is
an admin and whose role value is valid reaches that call, throws, and is
answered 500 with the store unchanged — no User row modified and no AuditLog
row written. -/
theorem C10_role_update_missing_storage_method (db : Db) (now : Nat)
    (actor targetId role : String) (u : User) (hu : getUser db actor = some u)
    (hr : u.role = "admin") (hv : role ∈ validRoles) :
    putUserRoleRoute db now actor targetId role = ⟨500, db⟩ := by
  unfold putUserRoleRoute
  rw [hu]
  have h1 : (u.role != "admin") = false := by simp [hr]
  have h2 : validRoles.contains role = true := List.elem_eq_true_of_mem hv
  simp [h1, h2, hv]

/-- Witness for C10: the admin dev user updating another user's role to
"contributor" gets a 500 and the store is untouched. -/
theorem C10_role_update_missing_storage_method_witness :
    putUserRoleRoute dbWithProgram 3 "u1" "u2" "contributor" = ⟨500, dbWithProgram⟩ :=
  C10_role_update_missing_storage_method dbWithProgram 3 "u1" "u2" "contributor"
    devUser (by decide) rfl (by decide)

end Spm
